import Mathlib

set_option linter.unusedVariables false

/-!
Verification of the xds-exec wrapper (src/main.go) against its
natural-language specification.

Go strings are modelled as Lean `String` (a structure over `List Char` in
this toolchain); Go slices of strings as `List String`; Go `error` values
as `Option String` (`none` = nil); fallible external calls (HTTP GET/POST,
socket connection) as `Except String _` parameters.  The JSON unmarshal
step of a listing response is modelled as `Option (List _)` (`none` =
malformed payload, mirroring `json.Unmarshal` returning a non-nil error
and leaving the target slice empty).
-/

namespace XdsExec

/-! ### Go library primitives used by main.go -/

/-- Go `copy(dst, src)`: overwrites the first `min |dst| |src|` elements of
`dst` with those of `src` and keeps the rest of `dst`. -/
def goCopy (dst src : List String) : List String :=
  src.take dst.length ++ dst.drop src.length

/-- Drop every leading and trailing occurrence of `c` (Go
`strings.Trim(s, cutset)` with a one-character cutset). -/
def trimChar (l : List Char) (c : Char) : List Char :=
  ((l.dropWhile (· == c)).reverse.dropWhile (· == c)).reverse

/-- Go `strings.Trim` on strings, single-character cutset. -/
def goTrim (s : String) (c : Char) : String :=
  ⟨trimChar s.data c⟩

/-- Go `strings.HasPrefix(s, pre)`. -/
def goStartsWith (s pre : String) : Bool :=
  pre.data.isPrefixOf s.data

/-- Go `path/filepath.Base` (Unix paths, no volume names): empty path gives
`"."`, trailing slashes are removed, all-slash paths give `"/"`, otherwise
the last path element. -/
def filepathBase (p : String) : String :=
  if p = "" then "."
  else
    let r := p.data.reverse.dropWhile (· == '/')
    if r = [] then "/" else ⟨(r.takeWhile (· != '/')).reverse⟩

/-- Go `strings.Index(s, sep)`: index of the first occurrence of `sep` in
`s`, `none` when absent (Go returns -1).  For empty `sep` this is `some 0`,
as in Go. -/
def goIndex : List Char → List Char → Option Nat
  | [], sep => if sep.isPrefixOf [] then some 0 else none
  | a :: t, sep =>
    if sep.isPrefixOf (a :: t) then some 0 else (goIndex t sep).map (· + 1)

/-- Fuel-driven core of Go `strings.SplitAfter`.  Each step consumes at
least one character of `s` whenever `sep` is nonempty, so fuel `|s|`
suffices; `sep` is nonempty at the single call site in main.go (it always
begins with a slash). -/
def splitAfterAux : Nat → List Char → List Char → List (List Char)
  | 0, s, _ => [s]
  | Nat.succ f, s, sep =>
    match goIndex s sep with
    | none => [s]
    | some i => s.take (i + sep.length) :: splitAfterAux f (s.drop (i + sep.length)) sep

/-- Go `strings.SplitAfter(s, sep)` (nonempty `sep`): splits after each
non-overlapping occurrence of `sep`, scanning left to right. -/
def splitAfterL (s sep : List Char) : List (List Char) :=
  splitAfterAux s.length s sep

/-- Number of non-overlapping occurrences of `sep` in `s`, scanning left to
right (specification-side notion used to state the path-inference
property). -/
def countOccAux : Nat → List Char → List Char → Nat
  | 0, _, _ => 0
  | Nat.succ f, s, sep =>
    match goIndex s sep with
    | none => 0
    | some i => 1 + countOccAux f (s.drop (i + sep.length)) sep

/-- Occurrence count of `sep` in `s` (nonempty `sep`). -/
def countOcc (s sep : List Char) : Nat :=
  countOccAux s.length s sep

/-- Everything after the first occurrence of `sep` in `s` (the whole of `s`
when `sep` does not occur). -/
def afterFirst (s sep : List Char) : List Char :=
  match goIndex s sep with
  | none => s
  | some i => s.drop (i + sep.length)

/-- Index of the first occurrence of the exact token `tok` in a list of
argument strings. -/
def firstTokIdx (tok : String) : List String → Option Nat
  | [] => none
  | a :: t => if a = tok then some 0 else (firstTokIdx tok t).map (· + 1)

/-- `needle` occurs somewhere inside `hay` (used to state that help output
enumerates an identifier). -/
def occursIn (needle hay : List Char) : Prop :=
  ∃ pre post, hay = pre ++ needle ++ post

/-! ### Data model (xaapiv1 types used by main.go) -/

/-- `xaapiv1.ProjectConfig`, restricted to the fields main.go reads. -/
structure ProjectConfig where
  ID : String
  Label : String
  ClientPath : String
  DefaultSdk : String
  deriving DecidableEq

/-- `xaapiv1.SDK`, restricted to the fields main.go reads. -/
structure SDK where
  ID : String
  Name : String
  deriving DecidableEq

/-- `xaapiv1.ExecArgs` as built at main.go lines 433-441. -/
structure ExecArgs where
  ID : String
  SdkID : String
  Cmd : String
  Args : List String
  Env : List String
  RPath : String
  CmdTimeout : Int
  deriving DecidableEq

/-- The two terminal signals delivered on the event channel: the
`disconnection` callback and the exec exit event (`xaapiv1.ExecExitMsg`
carries an `int` code and an `error`). -/
inductive TerminalSignal where
  | disconnection (err : Option String)
  | exited (code : Int) (err : Option String)
  deriving DecidableEq

/-- The `exitResult` struct of main.go (lines 361-364). -/
structure ExitResult where
  error : Option String
  code : Int
  deriving DecidableEq

/-- What each event-channel handler pushes onto `exitChan`
(main.go lines 371-373 and 395-397). -/
def signalToExitResult : TerminalSignal → ExitResult
  | .disconnection err => ⟨err, 2⟩
  | .exited code err => ⟨err, code⟩

/-- One write performed by the output callback. -/
inductive WriteAction where
  | toStdout (s : String)
  | toStderr (s : String)
  deriving DecidableEq

/-- `xaapiv1.ExecOutMsg`: one output-chunk event. -/
structure ExecOutMsg where
  Timestamp : String
  Stdout : String
  Stderr : String
  deriving DecidableEq

/-- `outFunc` (main.go lines 375-389): writes the stdout chunk to standard
output when nonempty and the stderr chunk to standard error when nonempty,
each prefixed with `timestamp ++ "| "` exactly when the timestamp flag is
set.  (The source assigns `tm` twice with identical bodies; the duplicate
assignment is a no-op and is modelled once.) -/
def outFunc (withTimestamp : Bool) (timestamp stdout stderr : String) : List WriteAction :=
  let tm := if withTimestamp then timestamp ++ "| " else ""
  (if stdout ≠ "" then [WriteAction.toStdout (tm ++ stdout)] else []) ++
    (if stderr ≠ "" then [WriteAction.toStderr (tm ++ stderr)] else [])

/-- The writes produced by a sequence of output events, in arrival order
(each event is handled immediately by `outFunc`, main.go lines 391-393). -/
def streamOutputs (withTimestamp : Bool) (evs : List ExecOutMsg) : List WriteAction :=
  evs.flatMap (fun e => outFunc withTimestamp e.Timestamp e.Stdout e.Stderr)

/-! ### Argument splitting (main.go lines 188-234) -/

/-- The argument split of main.go lines 188-234.  `args` and `argsCommand`
are allocated with `make([]string, len(os.Args))` and filled with `copy`,
so both keep length `|osArgs|`, padded with empty strings.  When the
executable name (the base of `osArgs[0]`) equals the native name, no split
occurs and the whole argv is the native command; otherwise the first `--`
among `osArgs[1:]` splits wrapper arguments from the native command.
Returns `(args, argsCommand)`.  (The `-c`/`--config` scan in the same loop
only sources the config file and never changes the split; it is modelled
by `resolveParam` below.) -/
def splitArgs (osArgs : List String) (nativeName : String) : List String × List String :=
  let n := osArgs.length
  let args0 := osArgs.take 1 ++ List.replicate (n - 1) ""
  let cmd0 : List String := List.replicate n ""
  if filepathBase (osArgs.headD "") ≠ nativeName then
    match firstTokIdx "--" (osArgs.drop 1) with
    | some i => (goCopy args0 (osArgs.take (i + 1)), goCopy cmd0 (osArgs.drop (i + 2)))
    | none => (goCopy args0 osArgs, cmd0)
  else
    (args0, goCopy cmd0 osArgs)

/-! ### Configuration resolution (main.go lines 114-164, 200-218)

The flag declarations live in main.go; the actual flag/env/default lookup
is performed by the vendored urfave/cli library and the config-file overlay
by godotenv, exactly as described by the help text main.go itself emits
(lines 93-99): option value first, else the `XDS_xxx` variable as
overloaded by the config file, else the plain environment variable, else
the built-in default.  `godotenv.Overload` (line 210) writes every
key/value pair of the file into the process environment, overwriting
existing variables; the cli library then uses an environment value only
when it is nonempty, and a flag value (all destinations are plain strings,
so an absent flag is the empty string) wins whenever nonempty. -/

/-- Environment view after `godotenv.Overload confFile`: file pairs
overwrite the original environment (even with an empty value). -/
def godotenvOverload (file : List (String × String)) (env : String → Option String) :
    String → Option String :=
  fun k =>
    match file.lookup k with
    | some v => some v
    | none => env k

/-- urfave/cli string-flag resolution against an environment view: the
destination starts at the declared default, is replaced by a nonempty
environment value when one is present, and is replaced by the flag value
when the flag was given (modelled as nonempty, since the wrapper cannot
distinguish an unset flag from an empty one — every destination is
consumed with `== ""` meaning unset). -/
def cliResolve (flagVal : String) (envLookup : String → Option String)
    (envKey dflt : String) : String :=
  if flagVal ≠ "" then flagVal
  else
    match envLookup envKey with
    | some v => if v ≠ "" then v else dflt
    | none => dflt

/-- Full resolution of one configuration parameter: flag value over the
config-file-overloaded environment over the built-in default. -/
def resolveParam (flagVal : String) (file : List (String × String))
    (env : String → Option String) (envKey dflt : String) : String :=
  cliResolve flagVal (godotenvOverload file env) envKey dflt

/-! ### Base URL (main.go lines 157-163, 261-264) -/

/-- main.go lines 261-264: the base URL used for both the HTTP client and
the socket.io event channel.  `http://` is prepended exactly when the
configured URL does not start with the literal string `http://`. -/
def baseURL (uri : String) : String :=
  if goStartsWith uri "http://" then uri else "http://" ++ uri

/-! ### Relative-path inference (main.go lines 408-422) -/

/-- main.go lines 412-415: the project client path, normalized to begin
with a slash. -/
def normalizedRoot (clientPath : String) : String :=
  if goStartsWith clientPath "/" then clientPath else "/" ++ clientPath

/-- main.go lines 412-420: normalize the project client path to begin with
a slash, split the working directory after each occurrence of it, and set
the relative path only when the split yields exactly two parts, trimming
slashes; otherwise keep the original value. -/
def inferRPath (rPath0 cwd clientPath : String) : String :=
  let fldRp := normalizedRoot clientPath
  let sp := splitAfterL cwd.data fldRp.data
  if sp.length = 2 then ⟨trimChar (sp.getD 1 []) '/'⟩ else rPath0

/-! ### Help output (main.go lines 300-344) -/

/-- One project line of the help listing (main.go lines 310-315). -/
def projectLine (f : ProjectConfig) : String :=
  "\n  " ++ f.ID ++ "\t | " ++ f.Label ++
    (if f.DefaultSdk ≠ "" then "\t(default SDK: " ++ f.DefaultSdk ++ ")" else "")

/-- The project part of the help message (main.go lines 308-316), appended
only when the projects payload unmarshalled successfully. -/
def projectsSection (ps : List ProjectConfig) : String :=
  (ps.foldl (fun m f => m ++ projectLine f)
    "List of existing projects (use: export XDS_PROJECT_ID=<< ID >>): \n  ID\t\t\t\t | Label")
    ++ "\n"

/-- One SDK line of the help listing (main.go lines 330-332). -/
def sdkLine (s : SDK) : String :=
  "  " ++ s.ID ++ "\t | " ++ s.Name ++ "\n"

/-- The SDK part of the help message (main.go lines 327-333), appended only
when the SDKs payload unmarshalled successfully. -/
def sdksSection (ss : List SDK) : String :=
  ss.foldl (fun m s => m ++ sdkLine s)
    "\nList of installed cross SDKs (use: export XDS_SDK_ID=<< ID >>): \n  ID\t\t\t\t\t | NAME\n"

/-- Go `%q` for the identifier strings appearing here (no characters that
`strconv.Quote` would escape). -/
def goQuote (s : String) : String := "\"" ++ s ++ "\""

/-- The usage example of the help message (main.go lines 335-341), appended
only when both lists are nonempty; `ccHelp` is the fixed example command of
line 244. -/
def exampleSection (p0 : ProjectConfig) (s0 : SDK) : String :=
  "\n" ++ "For example: \n" ++
    "  xds-exec --id " ++ goQuote p0.ID ++ " --sdkid " ++ goQuote s0.ID ++
      " -- " ++ "\x27mkdir build; cd build; cmake ..\x27" ++ "\n" ++
    " or\n" ++
    "  XDS_PROJECT_ID=" ++ goQuote p0.ID ++ " XDS_SDK_ID=" ++ goQuote s0.ID ++
      "  exec " ++ "\x27mkdir build; cd build; cmake ..\x27" ++ "\n"

/-! ### The session action (main.go lines 283-463) -/

/-- Outcome of one run of `app.Action`, starting after the successful
`/version` liveness check.  `exitCode`/`errMsg` are the argument pair of
the final `cli.NewExitError` (the cli library prints the message, when
nonempty, to standard error and exits with the code).
`eventChannelOpened` records whether the socket.io event channel was
established, `execSubmitted` the body of the `POST /exec` when one was
issued. -/
structure ActionResult where
  exitCode : Int
  errMsg : String
  eventChannelOpened : Bool
  execSubmitted : Option ExecArgs
  deriving DecidableEq

/-- `app.Action` (main.go lines 283-463) from the `/projects` fetch
onwards, with every external interaction passed in as data:
`projectsResult`/`sdksResult` are the listing GET outcomes (`Except.error`
= the GET itself failed; `.ok none` = payload did not unmarshal; `.ok
(some l)` = parsed list), `ioConnect` the socket.io connection outcome,
`cwd` the `os.Getwd` outcome, `postResult` the `POST /exec` outcome and
`signals` the terminal signals in arrival order on the single-slot
`exitChan` (the select at lines 452-463 acts on the first; `none` result
means the wait blocks forever because no terminal signal ever arrives).
`envMap` is the key/value content of the config file, forwarded as the
request environment (Go map iteration order is not specified; the order of
`envMap` stands for the order the iteration happened to produce). -/
def actionRun (prjID sdkid rPath0 : String) (listProject withTimestamp : Bool)
    (argsCommand : List String) (envMap : List (String × String))
    (projectsResult : Except String (Option (List ProjectConfig)))
    (sdksResult : Except String (Option (List SDK)))
    (ioConnect : Except String Unit) (cwd : Option String)
    (postResult : Except String Unit) (signals : List TerminalSignal) :
    Option ActionResult :=
  match projectsResult with
  | .error e => some ⟨1, e, false, none⟩
  | .ok mProjects =>
    let projects := mProjects.getD []
    if prjID = "" ∨ listProject then
      -- help branch (lines 300-344): never reaches the event channel
      let exc : Int := if listProject then 0 else 1
      let msg0 : String :=
        if listProject then "" else "XDS_PROJECT_ID environment variable must be set !\n"
      let msg1 :=
        match mProjects with
        | some ps => msg0 ++ projectsSection ps
        | none => msg0
      match sdksResult with
      | .error e => some ⟨1, e, false, none⟩
      | .ok mSdks =>
        let sdks := mSdks.getD []
        let msg2 :=
          match mSdks with
          | some ss => msg1 ++ sdksSection ss
          | none => msg1
        let msg3 :=
          if 0 < projects.length ∧ 0 < sdks.length then
            msg2 ++ exampleSection (projects.headD ⟨"", "", "", ""⟩) (sdks.headD ⟨"", ""⟩)
          else msg2
        some ⟨exc, msg3, false, none⟩
    else
      match ioConnect with
      | .error e => some ⟨1, "IO.socket connection error: " ++ e, false, none⟩
      | .ok _ =>
        let project := projects.find? (fun f => f.ID == prjID)
        let rPath :=
          if rPath0 = "" then
            match project, cwd with
            | some p, some c => inferRPath rPath0 c p.ClientPath
            | _, _ => rPath0
          else rPath0
        let req : ExecArgs :=
          { ID := prjID, SdkID := sdkid,
            Cmd := goTrim (argsCommand.headD "") ' ',
            Args := argsCommand.drop 1,
            Env := envMap.map (fun kv => kv.1 ++ "=" ++ kv.2),
            RPath := rPath, CmdTimeout := 60 }
        match postResult with
        | .error e => some ⟨1, e, true, some req⟩
        | .ok _ =>
          match signals.head? with
          | none => none
          | some sig =>
            let r := signalToExitResult sig
            some ⟨r.code, r.error.getD "", true, some req⟩

/-! ### Helper lemmas about the string primitives -/

theorem isPrefixOf_length_le {l₁ l₂ : List Char} (h : l₁.isPrefixOf l₂ = true) :
    l₁.length ≤ l₂.length := by
  induction l₁ generalizing l₂ with
  | nil => simp
  | cons a t ih =>
    cases l₂ with
    | nil => simp [List.isPrefixOf] at h
    | cons b u =>
      simp only [List.isPrefixOf, Bool.and_eq_true] at h
      simpa using ih h.2

theorem goIndex_nil {sep : List Char} (h : sep ≠ []) : goIndex [] sep = none := by
  cases sep with
  | nil => exact absurd rfl h
  | cons a t => simp [goIndex, List.isPrefixOf]

theorem goIndex_bound {s sep : List Char} {i : Nat} (h : goIndex s sep = some i) :
    i + sep.length ≤ s.length := by
  induction s generalizing i with
  | nil =>
    rw [goIndex] at h
    split at h
    · next hp =>
      have hl := isPrefixOf_length_le hp
      have h0 : i = 0 := by injection h with h0; omega
      subst h0
      simpa using hl
    · exact absurd h (by simp)
  | cons a t ih =>
    rw [goIndex] at h
    split at h
    · next hp =>
      have hl := isPrefixOf_length_le hp
      have : i = 0 := by injection h with h0; omega
      subst this
      simpa using hl
    · obtain ⟨j, hj, hji⟩ := Option.map_eq_some'.mp h
      have := ih hj
      simp only [List.length_cons]
      omega

theorem countOccAux_eq_zero_iff {sep : List Char} (hsep : sep ≠ []) :
    ∀ (f : Nat) (s : List Char), s.length ≤ f →
      (countOccAux f s sep = 0 ↔ goIndex s sep = none) := by
  intro f s hf
  cases f with
  | zero =>
    have hs : s = [] := List.length_eq_zero.mp (Nat.le_zero.mp hf)
    subst hs
    simp [countOccAux, goIndex_nil hsep]
  | succ f =>
    cases hg : goIndex s sep with
    | none => simp [countOccAux, hg]
    | some i => simp [countOccAux, hg]

theorem splitAfterAux_of_none {s sep : List Char} (h : goIndex s sep = none) (f : Nat) :
    splitAfterAux f s sep = [s] := by
  cases f with
  | zero => rfl
  | succ f => simp [splitAfterAux, h]

theorem splitAfterAux_ne_nil (f : Nat) (s sep : List Char) : splitAfterAux f s sep ≠ [] := by
  cases f with
  | zero => simp [splitAfterAux]
  | succ f =>
    cases hg : goIndex s sep with
    | none => simp [splitAfterAux, hg]
    | some i => simp [splitAfterAux, hg]

/-- When `sep` occurs exactly once, `SplitAfter` yields exactly the part up
to and including the occurrence and the part after it. -/
theorem splitAfterL_pair {s sep : List Char} (hsep : sep ≠ [])
    (h1 : countOcc s sep = 1) :
    ∃ i, goIndex s sep = some i ∧
      splitAfterL s sep = [s.take (i + sep.length), s.drop (i + sep.length)] := by
  unfold countOcc at h1
  cases hl : s.length with
  | zero =>
    rw [hl] at h1
    simp [countOccAux] at h1
  | succ m =>
    rw [hl] at h1
    cases hg : goIndex s sep with
    | none => simp [countOccAux, hg] at h1
    | some i =>
      refine ⟨i, rfl, ?_⟩
      have hb := goIndex_bound hg
      have hsl : 0 < sep.length := List.length_pos.mpr hsep
      simp only [countOccAux, hg] at h1
      have hz : countOccAux m (s.drop (i + sep.length)) sep = 0 := by omega
      have hrest : (s.drop (i + sep.length)).length ≤ m := by
        rw [List.length_drop]
        omega
      have hnone : goIndex (s.drop (i + sep.length)) sep = none :=
        (countOccAux_eq_zero_iff hsep m _ hrest).mp hz
      unfold splitAfterL
      rw [hl]
      simp [splitAfterAux, hg, splitAfterAux_of_none hnone]

/-- When `sep` does not occur exactly once, `SplitAfter` does not yield two
parts. -/
theorem splitAfterL_len_ne_two {s sep : List Char} (hsep : sep ≠ [])
    (h1 : countOcc s sep ≠ 1) :
    (splitAfterL s sep).length ≠ 2 := by
  unfold countOcc at h1
  cases hl : s.length with
  | zero =>
    have hs : s = [] := List.length_eq_zero.mp hl
    subst hs
    simp [splitAfterL, splitAfterAux]
  | succ m =>
    rw [hl] at h1
    cases hg : goIndex s sep with
    | none =>
      have hone : splitAfterL s sep = [s] := splitAfterAux_of_none hg _
      simp [hone]
    | some i =>
      have hb := goIndex_bound hg
      have hsl : 0 < sep.length := List.length_pos.mpr hsep
      simp only [countOccAux, hg] at h1
      have hnz : countOccAux m (s.drop (i + sep.length)) sep ≠ 0 := by omega
      have hrest : (s.drop (i + sep.length)).length ≤ m := by
        rw [List.length_drop]
        omega
      have hne : goIndex (s.drop (i + sep.length)) sep ≠ none := by
        intro hnone
        exact hnz ((countOccAux_eq_zero_iff hsep m _ hrest).mpr hnone)
      obtain ⟨j, hj⟩ := Option.ne_none_iff_exists'.mp hne
      have hb2 := goIndex_bound hj
      have hrestpos : 0 < (s.drop (i + sep.length)).length := by omega
      obtain ⟨m', rfl⟩ : ∃ m', m = m' + 1 := by
        cases m with
        | zero => omega
        | succ m' => exact ⟨m', rfl⟩
      unfold splitAfterL
      rw [hl]
      have hnenil := splitAfterAux_ne_nil m'
        ((s.drop (i + sep.length)).drop (j + sep.length)) sep
      simp only [splitAfterAux, hg, hj, List.length_cons]
      intro hcontra
      exact hnenil (List.length_eq_zero.mp (by omega))

theorem normalizedRoot_data_ne_nil (cp : String) : (normalizedRoot cp).data ≠ [] := by
  have hslash : "/".data = ['/'] := rfl
  unfold normalizedRoot
  split
  · next h =>
    intro hnil
    unfold goStartsWith at h
    rw [hnil, hslash] at h
    simp [List.isPrefixOf] at h
  · rw [String.data_append, hslash]
    simp

/-! ### C4: relative-path inference -/

/-- C4 (counterexample): the claim says the inferred relative path is
everything after the FIRST occurrence of the normalized root even when the
root occurs more than once in the working directory; but with
`cwd = "/a/proj/b/proj/c"` and root `"proj"` (normalized `"/proj"`,
occurring twice) the code keeps the original empty path instead of
returning `"b/proj/c"`. -/
theorem C4_counterexample :
    inferRPath "" "/a/proj/b/proj/c" "proj" = "" ∧
    countOcc "/a/proj/b/proj/c".data (normalizedRoot "proj").data = 2 ∧
    ("" : String) ≠ "b/proj/c" := by
  refine ⟨by decide, by decide, by decide⟩

/-- C4 (amended): when no relative path was supplied, the path is inferred
exactly when the normalized root occurs exactly once in the working
directory — it is then everything after that occurrence with `/` trimmed
from both ends — and otherwise (zero or several occurrences) the original
empty relative path is kept without error. -/
theorem C4_rpath_inference (cwd clientPath : String) :
    (countOcc cwd.data (normalizedRoot clientPath).data = 1 →
      inferRPath "" cwd clientPath =
        ⟨trimChar (afterFirst cwd.data (normalizedRoot clientPath).data) '/'⟩) ∧
    (countOcc cwd.data (normalizedRoot clientPath).data ≠ 1 →
      inferRPath "" cwd clientPath = "") := by
  have hsep := normalizedRoot_data_ne_nil clientPath
  constructor
  · intro h1
    obtain ⟨i, hg, hsp⟩ := splitAfterL_pair hsep h1
    have hafter : afterFirst cwd.data (normalizedRoot clientPath).data
        = cwd.data.drop (i + (normalizedRoot clientPath).data.length) := by
      unfold afterFirst
      rw [hg]
    rw [hafter]
    simp only [inferRPath]
    rw [hsp]
    simp [List.getD]
  · intro h1
    have hne := splitAfterL_len_ne_two hsep h1
    simp only [inferRPath]
    rw [if_neg hne]

/-- C4 (witness): `infer(cwd="/home/u/proj/src", root="proj")` gives the
relative path `src`. -/
theorem C4_witness :
    inferRPath "" "/home/u/proj/src" "proj" =
      ⟨trimChar (afterFirst "/home/u/proj/src".data (normalizedRoot "proj").data) '/'⟩ :=
  (C4_rpath_inference "/home/u/proj/src" "proj").1 (by decide)

/-! ### C2 / C6: argument splitting -/

theorem firstTokIdx_eq_some {tok : String} {l : List String} {k : Nat}
    (hget : l[k]? = some tok) (hfirst : ∀ j, j < k → l[j]? ≠ some tok) :
    firstTokIdx tok l = some k := by
  induction l generalizing k with
  | nil => simp at hget
  | cons a t ih =>
    cases k with
    | zero =>
      have ha : a = tok := by simpa using hget
      simp [firstTokIdx, ha]
    | succ k =>
      have ha : ¬(a = tok) := by
        intro ha
        exact hfirst 0 (Nat.succ_pos k) (by simp [ha])
      simp only [firstTokIdx]
      rw [if_neg ha,
        ih (by simpa using hget) (fun j hj => by simpa using hfirst (j + 1) (by omega))]
      rfl

theorem firstTokIdx_eq_none {tok : String} {l : List String} (h : tok ∉ l) :
    firstTokIdx tok l = none := by
  induction l with
  | nil => rfl
  | cons a t ih =>
    have ha : ¬(a = tok) := fun he => h (he ▸ List.mem_cons_self a t)
    simp only [firstTokIdx]
    rw [if_neg ha, ih (fun hm => h (List.mem_cons_of_mem a hm))]
    rfl

/-- With the first `--` at position `k ≥ 1` of argv, the split keeps
`argv[0:k]` (padded to length `|argv|` with empty strings, because the
destination slices are allocated with the full length) and the native
command is `argv[k+1:]`, likewise padded. -/
theorem splitArgs_at_sep {argv : List String} {k : Nat}
    (halias : filepathBase (argv.headD "") ≠ "exec")
    (hk1 : 1 ≤ k) (hk2 : k < argv.length)
    (hget : argv[k]? = some "--")
    (hfirst : ∀ j, 0 < j → j < k → argv[j]? ≠ some "--") :
    splitArgs argv "exec" =
      (argv.take k ++ List.replicate (argv.length - k) "",
       argv.drop (k + 1) ++ List.replicate (k + 1) "") := by
  have hn1 : 1 ≤ argv.length := by omega
  have hidx : firstTokIdx "--" (argv.drop 1) = some (k - 1) := by
    apply firstTokIdx_eq_some
    · rw [List.getElem?_drop]
      have he : 1 + (k - 1) = k := by omega
      rw [he]
      exact hget
    · intro j hj
      rw [List.getElem?_drop]
      exact hfirst (1 + j) (by omega) (by omega)
  simp only [splitArgs]
  rw [if_pos halias, hidx]
  have hck : k - 1 + 1 = k := by omega
  have hck2 : k - 1 + 2 = k + 1 := by omega
  dsimp only
  rw [hck, hck2]
  simp only [goCopy, Prod.mk.injEq]
  constructor
  · have hlen0 : (argv.take 1 ++ List.replicate (argv.length - 1) "").length = argv.length := by
      simp [List.length_take]
      omega
    rw [hlen0, List.take_take, Nat.min_eq_right (Nat.le_of_lt hk2),
      List.length_take, Nat.min_eq_left (Nat.le_of_lt hk2)]
    congr 1
    have hsplit : k = (argv.take 1).length + (k - 1) := by
      rw [List.length_take]
      omega
    nth_rewrite 1 [hsplit]
    rw [List.drop_append, List.drop_replicate]
    congr 1
    omega
  · rw [List.length_replicate,
      List.take_of_length_le (by rw [List.length_drop]; omega),
      List.length_drop, List.drop_replicate]
    congr 1
    congr 1
    omega

/-- With no `--` among `argv[1:]` (and no aliasing), the native command
slice stays at its freshly allocated value: `|argv|` empty strings. -/
theorem splitArgs_no_sep {argv : List String}
    (halias : filepathBase (argv.headD "") ≠ "exec")
    (hno : "--" ∉ argv.drop 1) :
    (splitArgs argv "exec").2 = List.replicate argv.length "" := by
  simp only [splitArgs]
  rw [if_pos halias, firstTokIdx_eq_none hno]

/-- C2 (counterexample): for `argv = ["xds-exec", "--", "make"]` the claim
predicts wrapper arguments exactly `["xds-exec"]` and native command
exactly `["make"]`, but both slices are padded with empty strings to the
length of argv, and the padding is observable (it is passed on to
`app.Run` and into the exec request arguments). -/
theorem C2_counterexample :
    splitArgs ["xds-exec", "--", "make"] "exec" = (["xds-exec", "", ""], ["make", "", ""]) ∧
    (["make", "", ""] : List String) ≠ ["make"] ∧
    (["xds-exec", "", ""] : List String) ≠ ["xds-exec"] := by
  refine ⟨by decide, by decide, by decide⟩

/-- C2 (amended): not under the native-name alias, the first `--` at index
`k ≥ 1` splits argv into `argv[0:k]` and `argv[k+1:]`, each padded with
empty strings up to length `|argv|` (position 0 holds the program name and
is never scanned for `--`); with no `--` among `argv[1:]` the native
sequence is `|argv|` empty strings rather than the empty sequence. -/
theorem C2_arg_split (argv : List String)
    (halias : filepathBase (argv.headD "") ≠ "exec") :
    (∀ k, 1 ≤ k → k < argv.length → argv[k]? = some "--" →
        (∀ j, 0 < j → j < k → argv[j]? ≠ some "--") →
        splitArgs argv "exec" =
          (argv.take k ++ List.replicate (argv.length - k) "",
           argv.drop (k + 1) ++ List.replicate (k + 1) "")) ∧
    ("--" ∉ argv.drop 1 → (splitArgs argv "exec").2 = List.replicate argv.length "") :=
  ⟨fun _ hk1 hk2 hget hfirst => splitArgs_at_sep halias hk1 hk2 hget hfirst,
   fun hno => splitArgs_no_sep halias hno⟩

/-- C2 (witness): the amended split at the concrete invocation
`xds-exec -- make`. -/
theorem C2_witness :
    splitArgs ["xds-exec", "--", "make"] "exec" = (["xds-exec", "", ""], ["make", "", ""]) :=
  ((C2_arg_split ["xds-exec", "--", "make"] (by decide)).1 1 (by decide) (by decide)
    (by decide) (fun j hj1 hj2 => absurd hj1 (by omega))).trans (by decide)

/-! ### C3: configuration precedence -/

/-- C3 (counterexample): with the flag unset, a config file defining
`XDS_PROJECT_ID` with an EMPTY value, and the environment carrying the
non-empty value `x`, the claim picks `x` (the highest-precedence source
providing a non-empty value); but the config-file overlay physically
overwrites the environment variable, so the empty file value masks `x` and
the built-in default is chosen instead. -/
theorem C3_counterexample :
    resolveParam "" [("XDS_PROJECT_ID", "")]
        (fun k => if k = "XDS_PROJECT_ID" then some "x" else none) "XDS_PROJECT_ID" "" = "" ∧
    ("" : String) ≠ "x" := by
  exact ⟨by decide, by decide⟩

/-- C3 (amended): precedence is non-empty flag value, then non-empty
config-file value, then (only for keys the file does not define at all)
non-empty environment value, then the built-in default; a file entry with
an empty value masks the environment variable and forces the default.  In
particular a non-empty flag value always wins. -/
theorem C3_precedence (flag : String) (file : List (String × String))
    (env : String → Option String) (key dflt : String) :
    (flag ≠ "" → resolveParam flag file env key dflt = flag) ∧
    (flag = "" → ∀ v, file.lookup key = some v → v ≠ "" →
      resolveParam flag file env key dflt = v) ∧
    (flag = "" → file.lookup key = some "" →
      resolveParam flag file env key dflt = dflt) ∧
    (flag = "" → file.lookup key = none → ∀ w, env key = some w → w ≠ "" →
      resolveParam flag file env key dflt = w) ∧
    (flag = "" → file.lookup key = none → (env key = none ∨ env key = some "") →
      resolveParam flag file env key dflt = dflt) := by
  refine ⟨?_, ?_, ?_, ?_, ?_⟩
  · intro hf
    simp [resolveParam, cliResolve, hf]
  · intro hf v hv hne
    simp [resolveParam, cliResolve, godotenvOverload, hf, hv, hne]
  · intro hf hv
    simp [resolveParam, cliResolve, godotenvOverload, hf, hv]
  · intro hf hv w hw hne
    simp [resolveParam, cliResolve, godotenvOverload, hf, hv, hw, hne]
  · intro hf hv hor
    rcases hor with h | h <;>
      simp [resolveParam, cliResolve, godotenvOverload, hf, hv, h]

/-- C3 (witness): a non-empty flag value wins over non-empty file and
environment values. -/
theorem C3_witness :
    resolveParam "flagval" [("XDS_PROJECT_ID", "filev")]
      (fun _ => some "envv") "XDS_PROJECT_ID" "dflt" = "flagval" :=
  (C3_precedence "flagval" [("XDS_PROJECT_ID", "filev")] (fun _ => some "envv")
    "XDS_PROJECT_ID" "dflt").1 (by decide)

/-! ### C9: agent URL -/

/-- C9 (counterexample): `https://host` already carries a scheme but is
not used unchanged — the code only tests for the literal prefix `http://`
and prepends it, producing `http://https://host`. -/
theorem C9_counterexample :
    baseURL "https://host" = "http://https://host" ∧
    baseURL "https://host" ≠ "https://host" := by
  exact ⟨by decide, by decide⟩

/-- C9 (amended): with neither flag nor environment value the configured
URL defaults to `localhost:8000`, giving base URL `http://localhost:8000`;
`http://` is prepended exactly when the configured URL does not start with
the literal string `http://` — so only URLs already starting with
`http://` are used unchanged (an `https://` URL is also prefixed). -/
theorem C9_base_url :
    baseURL (resolveParam "" [] (fun _ => none) "XDS_AGENT_URL" "localhost:8000")
      = "http://localhost:8000" ∧
    (∀ uri : String, goStartsWith uri "http://" = true → baseURL uri = uri) ∧
    (∀ uri : String, goStartsWith uri "http://" = false →
      baseURL uri = "http://" ++ uri) ∧
    (∀ uri : String, baseURL uri = uri ↔ goStartsWith uri "http://" = true) := by
  refine ⟨by decide, ?_, ?_, ?_⟩
  · intro uri h
    simp [baseURL, h]
  · intro uri h
    simp [baseURL, h]
  · intro uri
    constructor
    · intro h
      by_contra hb
      have hb2 : goStartsWith uri "http://" = false := by simpa using hb
      have hx : baseURL uri = "http://" ++ uri := by simp [baseURL, hb2]
      rw [hx] at h
      have hd := congrArg String.data h
      rw [String.data_append] at hd
      have hlen := congrArg List.length hd
      rw [List.length_append] at hlen
      have h7 : ("http://".data).length = 7 := by decide
      omega
    · intro h
      simp [baseURL, h]

/-- C9 (witness): a URL already starting with `http://` is unchanged. -/
theorem C9_witness : baseURL "http://a" = "http://a" :=
  C9_base_url.2.1 "http://a" (by decide)

/-! ### C7: listing failures -/

/-- C7 (counterexample): with listing explicitly requested, a failing
project-listing call (the GET itself returns an error, e.g. a non-success
response) is fatal: the session exits with code 1 and the bare error
message, and never completes the help flow, contrary to the claim that
every listing failure is non-fatal. -/
theorem C7_counterexample :
    actionRun "" "" "" true false [] [] (Except.error "boom") (Except.ok none) (Except.ok ())
        none (Except.ok ()) [] = some ⟨1, "boom", false, none⟩ ∧
    ¬ occursIn "List of".data "boom".data := by
  constructor
  · rfl
  · rintro ⟨p, q, hpq⟩
    have hlen := congrArg List.length hpq
    have h4 : ("boom".data).length = 4 := by decide
    have h7 : ("List of".data).length = 7 := by decide
    rw [List.length_append, List.length_append, h4, h7] at hlen
    omega

/-- C7 (amended): a listing GET that itself fails (project list or SDK
list) aborts the session with exit code 1 and the raw error message;
only a malformed listing payload is non-fatal — the corresponding list is
skipped and the help flow still completes with its normal exit code. -/
theorem C7_listing_failures (prjID sdkid rPath0 : String)
    (listProject withTimestamp : Bool) (argsCommand : List String)
    (envMap : List (String × String)) (mp : Option (List ProjectConfig))
    (ioConnect : Except String Unit) (cwd : Option String)
    (postResult : Except String Unit) (signals : List TerminalSignal) :
    (∀ e sdksResult, actionRun prjID sdkid rPath0 listProject withTimestamp argsCommand envMap
        (Except.error e) sdksResult ioConnect cwd postResult signals
      = some ⟨1, e, false, none⟩) ∧
    ((prjID = "" ∨ listProject = true) → ∀ e,
      actionRun prjID sdkid rPath0 listProject withTimestamp argsCommand envMap
        (Except.ok mp) (Except.error e) ioConnect cwd postResult signals
      = some ⟨1, e, false, none⟩) ∧
    ((prjID = "" ∨ listProject = true) →
      ∃ msg, actionRun prjID sdkid rPath0 listProject withTimestamp argsCommand envMap
          (Except.ok none) (Except.ok none) ioConnect cwd postResult signals
        = some ⟨if listProject then 0 else 1, msg, false, none⟩) := by
  refine ⟨fun e sdksResult => rfl, ?_, ?_⟩
  · intro h e
    simp only [actionRun]
    rw [if_pos h]
  · intro h
    simp only [actionRun]
    rw [if_pos h]
    exact ⟨_, rfl⟩

/-- C7 (witness): with both listing payloads malformed and listing
requested, the help flow still completes with exit code 0. -/
theorem C7_witness :
    ∃ msg, actionRun "" "" "" true false [] [] (Except.ok none) (Except.ok none) (Except.ok ())
        none (Except.ok ()) [] = some ⟨if true then 0 else 1, msg, false, none⟩ :=
  (C7_listing_failures "" "" "" true false [] [] none (Except.ok ()) none
    (Except.ok ()) []).2.2 (Or.inr rfl)

/-! ### C5: help outcome -/

theorem occursIn_append_left {x a : List Char} (b : List Char) (h : occursIn x a) :
    occursIn x (a ++ b) := by
  obtain ⟨p, q, rfl⟩ := h
  exact ⟨p, q ++ b, by simp [List.append_assoc]⟩

theorem occursIn_append_right {x b : List Char} (a : List Char) (h : occursIn x b) :
    occursIn x (a ++ b) := by
  obtain ⟨p, q, rfl⟩ := h
  exact ⟨a ++ p, q, by simp [List.append_assoc]⟩

theorem occursIn_str_left {x : List Char} (a b : String) (h : occursIn x a.data) :
    occursIn x (a ++ b).data := by
  rw [String.data_append]
  exact occursIn_append_left _ h

theorem occursIn_str_right {x : List Char} (a b : String) (h : occursIn x b.data) :
    occursIn x (a ++ b).data := by
  rw [String.data_append]
  exact occursIn_append_right _ h

theorem occursIn_foldl {α : Type} (line : α → String) (l : List α) (init : String)
    (x : List Char) (h : occursIn x init.data) :
    occursIn x (l.foldl (fun m b => m ++ line b) init).data := by
  induction l generalizing init with
  | nil => exact h
  | cons b t ih =>
    rw [List.foldl_cons]
    exact ih (init ++ line b) (occursIn_str_left _ _ h)

theorem occursIn_foldl_mem {α : Type} (line : α → String) (l : List α) (init : String)
    (a : α) (x : List Char) (ha : a ∈ l) (h : occursIn x (line a).data) :
    occursIn x (l.foldl (fun m b => m ++ line b) init).data := by
  induction l generalizing init with
  | nil => cases ha
  | cons b t ih =>
    rw [List.foldl_cons]
    rcases List.mem_cons.mp ha with rfl | hmem
    · exact occursIn_foldl line t _ x (occursIn_str_right _ _ h)
    · exact ih _ hmem

theorem projectLine_has_id (f : ProjectConfig) : occursIn f.ID.data (projectLine f).data := by
  refine ⟨"\n  ".data,
    ("\t | " ++ f.Label ++
      (if f.DefaultSdk ≠ "" then "\t(default SDK: " ++ f.DefaultSdk ++ ")" else "")).data, ?_⟩
  simp [projectLine, List.append_assoc]

theorem projectsSection_has_id {f : ProjectConfig} {ps : List ProjectConfig} (hf : f ∈ ps) :
    occursIn f.ID.data (projectsSection ps).data := by
  unfold projectsSection
  apply occursIn_str_left
  exact occursIn_foldl_mem projectLine ps _ f _ hf (projectLine_has_id f)

theorem sdkLine_has_id (s : SDK) : occursIn s.ID.data (sdkLine s).data := by
  refine ⟨"  ".data, ("\t | " ++ s.Name ++ "\n").data, ?_⟩
  simp [sdkLine, List.append_assoc]

theorem sdksSection_has_id {s : SDK} {ss : List SDK} (hs : s ∈ ss) :
    occursIn s.ID.data (sdksSection ss).data := by
  unfold sdksSection
  exact occursIn_foldl_mem sdkLine ss _ s _ hs (sdkLine_has_id s)

theorem exampleSection_has_example (p0 : ProjectConfig) (s0 : SDK) :
    occursIn "For example".data (exampleSection p0 s0).data := by
  unfold exampleSection
  repeat
    first
      | exact ⟨"\n".data, ": \n".data, by decide⟩
      | apply occursIn_str_left

/-- C5 (counterexample): with listing explicitly requested, a failing SDK
listing GET makes the session exit with code 1 and the raw error message
instead of producing the help outcome with exit code 0. -/
theorem C5_counterexample :
    actionRun "" "" "" true false [] [] (Except.ok (some [⟨"p1", "L1", "/p", ""⟩]))
        (Except.error "boom") (Except.ok ()) none (Except.ok ()) []
      = some ⟨1, "boom", false, none⟩ ∧
    (ActionResult.exitCode ⟨1, "boom", false, none⟩ ≠ 0) := by
  exact ⟨rfl, by decide⟩

/-- C5 (amended): when the project ID is empty or listing was requested
and both listing GETs succeed, the session returns a help outcome with
exit code 0 when listing was requested and 1 otherwise, never opens the
event channel and never submits an exec request; the help text enumerates
every parsed project and SDK identifier and carries a usage example when
at least one project and one SDK were parsed. -/
theorem C5_help_outcome (prjID sdkid rPath0 : String) (listProject withTimestamp : Bool)
    (argsCommand : List String) (envMap : List (String × String))
    (mp : Option (List ProjectConfig)) (ms : Option (List SDK))
    (ioConnect : Except String Unit) (cwd : Option String)
    (postResult : Except String Unit) (signals : List TerminalSignal)
    (h : prjID = "" ∨ listProject = true) :
    ∃ msg : String,
      actionRun prjID sdkid rPath0 listProject withTimestamp argsCommand envMap
          (Except.ok mp) (Except.ok ms) ioConnect cwd postResult signals
        = some ⟨if listProject then 0 else 1, msg, false, none⟩ ∧
      (∀ p ∈ mp.getD [], occursIn p.ID.data msg.data) ∧
      (∀ s ∈ ms.getD [], occursIn s.ID.data msg.data) ∧
      (mp.getD [] ≠ [] → ms.getD [] ≠ [] → occursIn "For example".data msg.data) := by
  simp only [actionRun]
  rw [if_pos h]
  refine ⟨_, rfl, ?_, ?_, ?_⟩
  · intro p hp
    cases mp with
    | none => simp at hp
    | some ps =>
      simp only [Option.getD_some] at hp
      have hbase := projectsSection_has_id hp
      cases ms with
      | none =>
        dsimp only
        split
        · apply occursIn_str_left
          exact occursIn_str_right _ _ hbase
        · exact occursIn_str_right _ _ hbase
      | some ss =>
        dsimp only
        split
        · apply occursIn_str_left
          apply occursIn_str_left
          exact occursIn_str_right _ _ hbase
        · apply occursIn_str_left
          exact occursIn_str_right _ _ hbase
  · intro s hs
    cases ms with
    | none => simp at hs
    | some ss =>
      simp only [Option.getD_some] at hs
      have hbase := sdksSection_has_id hs
      dsimp only
      split
      · apply occursIn_str_left
        exact occursIn_str_right _ _ hbase
      · exact occursIn_str_right _ _ hbase
  · intro hne1 hne2
    cases mp with
    | none => simp at hne1
    | some ps =>
      cases ms with
      | none => simp at hne2
      | some ss =>
        simp only [Option.getD_some] at hne1 hne2
        dsimp only
        simp only [Option.getD_some]
        rw [if_pos ⟨List.length_pos.mpr hne1, List.length_pos.mpr hne2⟩]
        exact occursIn_str_right _ _ (exampleSection_has_example _ _)

/-- C5 (witness): the help outcome at a concrete session with one project
and one SDK, listing requested. -/
theorem C5_witness :
    ∃ msg : String,
      actionRun "" "" "" true false [] [] (Except.ok (some [⟨"p1", "L1", "/p", ""⟩]))
          (Except.ok (some [⟨"s1", "N1"⟩])) (Except.ok ()) none (Except.ok ()) []
        = some ⟨if true then 0 else 1, msg, false, none⟩ ∧
      (∀ p ∈ (some [(⟨"p1", "L1", "/p", ""⟩ : ProjectConfig)]).getD [],
        occursIn p.ID.data msg.data) ∧
      (∀ s ∈ (some [(⟨"s1", "N1"⟩ : SDK)]).getD [], occursIn s.ID.data msg.data) ∧
      ((some [(⟨"p1", "L1", "/p", ""⟩ : ProjectConfig)]).getD [] ≠ [] →
        (some [(⟨"s1", "N1"⟩ : SDK)]).getD [] ≠ [] →
        occursIn "For example".data msg.data) :=
  C5_help_outcome "" "" "" true false [] [] (some [⟨"p1", "L1", "/p", ""⟩])
    (some [⟨"s1", "N1"⟩]) (Except.ok ()) none (Except.ok ()) [] (Or.inl rfl)

/-! ### C1: terminal outcome mapping -/

/-- C1: for a session that reaches streaming (non-empty project ID, no
listing, successful project fetch, socket connection and POST), the first
terminal signal decides the outcome: an exit event `Exited{code, error}`
makes the session exit with exactly `code` and surface the error text, and
a disconnection arriving first makes it exit with code 2 and surface the
error verbatim. -/
theorem C1_terminal_outcome (prjID sdkid rPath0 : String) (withTimestamp : Bool)
    (argsCommand : List String) (envMap : List (String × String))
    (mp : Option (List ProjectConfig)) (sdksResult : Except String (Option (List SDK)))
    (cwd : Option String) (sig : TerminalSignal) (rest : List TerminalSignal)
    (hprj : prjID ≠ "") :
    ∃ r : ActionResult,
      actionRun prjID sdkid rPath0 false withTimestamp argsCommand envMap (Except.ok mp)
          sdksResult (Except.ok ()) cwd (Except.ok ()) (sig :: rest) = some r ∧
      (∀ e, sig = TerminalSignal.disconnection e → r.exitCode = 2 ∧ r.errMsg = e.getD "") ∧
      (∀ c e, sig = TerminalSignal.exited c e → r.exitCode = c ∧ r.errMsg = e.getD "") := by
  simp only [actionRun]
  rw [if_neg (by simp [hprj])]
  refine ⟨_, rfl, ?_, ?_⟩
  · rintro e rfl
    exact ⟨rfl, rfl⟩
  · rintro c e rfl
    exact ⟨rfl, rfl⟩

/-- C1 (witness): a disconnection carrying `boom` arriving before any exit
event at a concrete session. -/
theorem C1_witness :
    ∃ r : ActionResult,
      actionRun "p1" "" "" false false [] [] (Except.ok none) (Except.ok none) (Except.ok ())
          none (Except.ok ()) [TerminalSignal.disconnection (some "boom")] = some r ∧
      (∀ e, TerminalSignal.disconnection (some "boom") = TerminalSignal.disconnection e →
        r.exitCode = 2 ∧ r.errMsg = e.getD "") ∧
      (∀ c e, TerminalSignal.disconnection (some "boom") = TerminalSignal.exited c e →
        r.exitCode = c ∧ r.errMsg = e.getD "") :=
  C1_terminal_outcome "p1" "" "" false [] [] none (Except.ok none) none
    (TerminalSignal.disconnection (some "boom")) [] (by decide)

/-! ### C6: empty native command -/

/-- C6 (counterexample): invoked as `xds-exec build` (no `--`, not
aliased) with a valid project ID, the session does NOT fail with a
configuration error: it submits an exec request whose command is the empty
string (and whose argument list is a padding artifact). -/
theorem C6_counterexample :
    (splitArgs ["xds-exec", "build"] "exec").2 = ["", ""] ∧
    actionRun "p1" "" "" false false ["", ""] [] (Except.ok (some [])) (Except.ok none)
        (Except.ok ()) none (Except.ok ()) [TerminalSignal.exited 0 none]
      = some ⟨0, "", true, some ⟨"p1", "", "", [""], [], "", 60⟩⟩ := by
  exact ⟨by decide, by decide⟩

/-- C6 (amended): when no `--` separator is found and the wrapper is not
running under the native-name alias, the native argument slice consists of
empty strings only; the session performs no validation of it — with a
non-empty project ID it proceeds to submit an exec request whose command
is the empty string. -/
theorem C6_empty_native_submitted (argv : List String) (prjID sdkid rPath0 : String)
    (withTimestamp : Bool) (envMap : List (String × String))
    (mp : Option (List ProjectConfig)) (sdksResult : Except String (Option (List SDK)))
    (cwd : Option String) (sig : TerminalSignal) (rest : List TerminalSignal)
    (halias : filepathBase (argv.headD "") ≠ "exec")
    (hno : "--" ∉ argv.drop 1) (hprj : prjID ≠ "") :
    ∃ r req,
      actionRun prjID sdkid rPath0 false withTimestamp ((splitArgs argv "exec").2) envMap
          (Except.ok mp) sdksResult (Except.ok ()) cwd (Except.ok ()) (sig :: rest)
        = some r ∧
      r.execSubmitted = some req ∧ req.Cmd = "" := by
  rw [splitArgs_no_sep halias hno]
  have hcmd : (List.replicate argv.length "").headD "" = "" := by
    cases argv.length with
    | zero => rfl
    | succ n => rfl
  simp only [actionRun]
  rw [if_neg (by simp [hprj])]
  refine ⟨_, _, rfl, rfl, ?_⟩
  rw [hcmd]
  rfl

/-- C6 (witness): the amended behaviour at the concrete invocation
`xds-exec build`. -/
theorem C6_witness :
    ∃ r req,
      actionRun "p1" "" "" false false ((splitArgs ["xds-exec", "build"] "exec").2) []
          (Except.ok (some [])) (Except.ok none) (Except.ok ()) none (Except.ok ())
          [TerminalSignal.exited 0 none] = some r ∧
      r.execSubmitted = some req ∧ req.Cmd = "" :=
  C6_empty_native_submitted ["xds-exec", "build"] "p1" "" "" false [] (some [])
    (Except.ok none) none (TerminalSignal.exited 0 none) [] (by decide) (by decide) (by decide)

/-! ### C8: output events -/

/-- C8: each output event writes its stdout chunk to standard output
exactly when the chunk is non-empty and its stderr chunk to standard error
exactly when non-empty, with the content prefixed by the event timestamp
(plus `| `) exactly when the timestamp flag is set, immediately in arrival
order (the writes of an event stream are the concatenation, in order, of
each event's writes). -/
theorem C8_output_writes (wt : Bool) (ts so se : String) :
    ((∃ s, WriteAction.toStdout s ∈ outFunc wt ts so se) ↔ so ≠ "") ∧
    ((∃ s, WriteAction.toStderr s ∈ outFunc wt ts so se) ↔ se ≠ "") ∧
    (∀ s, WriteAction.toStdout s ∈ outFunc wt ts so se →
      s = (if wt then ts ++ "| " else "") ++ so) ∧
    (∀ s, WriteAction.toStderr s ∈ outFunc wt ts so se →
      s = (if wt then ts ++ "| " else "") ++ se) ∧
    (∀ evs : List ExecOutMsg,
      streamOutputs wt (⟨ts, so, se⟩ :: evs) = outFunc wt ts so se ++ streamOutputs wt evs) := by
  refine ⟨?_, ?_, ?_, ?_, ?_⟩
  · by_cases hso : so = "" <;> by_cases hse : se = "" <;> simp [outFunc, hso, hse]
  · by_cases hso : so = "" <;> by_cases hse : se = "" <;> simp [outFunc, hso, hse]
  · intro s hs
    by_cases hso : so = "" <;> by_cases hse : se = "" <;> simp_all [outFunc]
  · intro s hs
    by_cases hso : so = "" <;> by_cases hse : se = "" <;> simp_all [outFunc]
  · intro evs
    simp [streamOutputs]

/-- C8 (witness): the event `{"t1", "out1", ""}` produces a standard
output write. -/
theorem C8_witness : ∃ s, WriteAction.toStdout s ∈ outFunc false "t1" "out1" "" :=
  (C8_output_writes false "t1" "out1" "").1.mpr (by decide)

/-! ### C10: fixed command timeout -/

/-- C10: every exec request the session submits carries command timeout
exactly 60, whatever the flags, environment, config file, arguments or
remote responses were. -/
theorem C10_fixed_timeout (prjID sdkid rPath0 : String) (listProject withTimestamp : Bool)
    (argsCommand : List String) (envMap : List (String × String))
    (projectsResult : Except String (Option (List ProjectConfig)))
    (sdksResult : Except String (Option (List SDK)))
    (ioConnect : Except String Unit) (cwd : Option String)
    (postResult : Except String Unit) (signals : List TerminalSignal)
    (r : ActionResult) (req : ExecArgs)
    (hrun : actionRun prjID sdkid rPath0 listProject withTimestamp argsCommand envMap
        projectsResult sdksResult ioConnect cwd postResult signals = some r)
    (hreq : r.execSubmitted = some req) :
    req.CmdTimeout = 60 := by
  unfold actionRun at hrun
  cases projectsResult with
  | error e =>
    obtain rfl := Option.some.inj hrun
    simp at hreq
  | ok mp =>
    dsimp only at hrun
    by_cases hp : prjID = "" ∨ listProject = true
    · rw [if_pos hp] at hrun
      cases sdksResult with
      | error e =>
        obtain rfl := Option.some.inj hrun
        simp at hreq
      | ok ms =>
        dsimp only at hrun
        obtain rfl := Option.some.inj hrun
        simp at hreq
    · rw [if_neg hp] at hrun
      cases ioConnect with
      | error e =>
        obtain rfl := Option.some.inj hrun
        simp at hreq
      | ok u =>
        dsimp only at hrun
        cases postResult with
        | error e =>
          obtain rfl := Option.some.inj hrun
          dsimp only at hreq
          obtain rfl := Option.some.inj hreq
          rfl
        | ok u2 =>
          cases signals with
          | nil => simp at hrun
          | cons sig rest =>
            dsimp only at hrun
            obtain rfl := Option.some.inj hrun
            dsimp only at hreq
            obtain rfl := Option.some.inj hreq
            rfl

/-- C10 (witness): the timeout of the concrete submitted request. -/
theorem C10_witness : (⟨"p1", "", "", [""], [], "", 60⟩ : ExecArgs).CmdTimeout = 60 :=
  C10_fixed_timeout "p1" "" "" false false ["", ""] [] (Except.ok (some [])) (Except.ok none)
    (Except.ok ()) none (Except.ok ()) [TerminalSignal.exited 0 none]
    ⟨0, "", true, some ⟨"p1", "", "", [""], [], "", 60⟩⟩ ⟨"p1", "", "", [""], [], "", 60⟩
    (by decide) (by decide)

end XdsExec
